import Mathlib

/-!
Verification of the eve transaction-admission pipeline (`app/ante/ante.go`)
and its cross-denomination fee resolver (`DenomResolverImpl`).

The Go source is shallowly embedded: the decorator chain built by
`NewAnteHandler` becomes an explicit list of stage labels, and the resolver
functions become executable Lean functions over a keeper record.  Cosmos
`LegacyDec` values are 18-decimal fixed-point numbers; they are embedded as
their underlying nonnegative integer mantissa (value = mantissa / 10^18),
which matches the `big.Int` arithmetic of the SDK for the nonnegative
amounts and rates that occur here.
-/

namespace Eve

/-! ## Cosmos LegacyDec arithmetic (cosmossdk.io/math, nonnegative fragment) -/

/-- The LegacyDec scale 10^18: a Dec with mantissa `i` has value `i / 10^18`. -/
def decPrecision : Nat := 10 ^ 18

/-- Round `a / b` to the nearest integer, ties away from zero (both arguments
nonnegative, so "away from zero" is "up").  This is the integer form of the
SDK's `chopPrecisionAndRound`: quotient plus one exactly when the remainder
is at least half the divisor. -/
def roundHalfNat (a b : Nat) : Nat := (2 * a + b) / (2 * b)

/-- `LegacyDec.Quo`: multiply the mantissa by 10^36, divide (truncating, as
`big.Int.Quo` on nonnegative values), then chop 18 digits rounding half away
from zero. -/
def decQuo (x y : Nat) : Nat := roundHalfNat (x * 10 ^ 36 / y) decPrecision

/-- `LegacyDec.RoundInt` on a nonnegative Dec: round the value to the nearest
integer, ties away from zero. -/
def decRoundInt (x : Nat) : Nat := roundHalfNat x decPrecision

/-- `LegacyDec.MulInt`: exact product of a Dec mantissa and an integer. -/
def decMulInt (x m : Nat) : Nat := x * m

/-- `math.Int.ToLegacyDec`: an integer as a Dec mantissa. -/
def toLegacyDec (n : Nat) : Nat := n * decPrecision

/-- `LegacyDec.TruncateInt`: drop the fractional part of a nonnegative Dec. -/
def truncateInt (x : Nat) : Nat := x / decPrecision

/-! ## Coins -/

/-- `sdk.Coin`: integer amount in a denomination. -/
structure Coin where
  denom : String
  amount : Nat
deriving DecidableEq, BEq

/-- `sdk.DecCoin`: decimal amount (Dec mantissa) in a denomination. -/
structure DecCoin where
  denom : String
  amount : Nat
deriving DecidableEq, BEq

/-- `sdk.NewCoins` sanitization: zero-amount coins are dropped.  (The full
constructor also sorts by denom and merges duplicates; every call site in
`ante.go` passes at most one coin, for which filtering is the whole effect.) -/
def newCoins (cs : List Coin) : List Coin := cs.filter (fun c => c.amount ≠ 0)

/-! ## Fee-abstraction registry (Host Zone Configs) and keepers -/

/-- `feeabstypes.HostChainFeeAbsStatus`: the enable/disable flag of a registry
entry (`UPDATED` is the active state, `FROZEN` is disabled). -/
inductive HostChainFeeAbsStatus where
  | updated
  | outdated
  | frozen
deriving DecidableEq, BEq

/-- `feeabstypes.HostChainFeeAbsConfig`: one Rate Registry entry. -/
structure HostChainFeeAbsConfig where
  ibcDenom : String
  osmosisPoolTokenDenomIn : String
  poolId : Nat
  status : HostChainFeeAbsStatus
deriving DecidableEq, BEq

/-- The error values surfaced by the resolver code paths. -/
inductive SdkError where
  | bondDenomErr
  | errorResolvingDenom
  | expectedOneNativeCoin (got : Nat)
  | twapNotFound
  | invalidIBCFees
  | unsupportedDenom (denom : String)
deriving DecidableEq, BEq

/-- The slice of `feeabskeeper.Keeper` state the resolver reads: the host zone
config store (keyed by IBC denom) and the TWAP rate store.  `nativeDenom` is
the denomination the external keeper reports for computed native fees. -/
structure FeeAbsKeeper where
  hostZoneConfigs : List HostChainFeeAbsConfig
  twapRates : String → Option Nat
  nativeDenom : String

/-- `feeabskeeper.Keeper.GetHostZoneConfig`: look up a registry entry by its
IBC denom. -/
def getHostZoneConfig (k : FeeAbsKeeper) (ibcDenom : String) :
    Option HostChainFeeAbsConfig :=
  k.hostZoneConfigs.find? (fun cfg => cfg.ibcDenom == ibcDenom)

/-- `feeabskeeper.Keeper.HasHostZoneConfig`: registry membership test. -/
def hasHostZoneConfig (k : FeeAbsKeeper) (ibcDenom : String) : Bool :=
  (getHostZoneConfig k ibcDenom).isSome

/-- `feeabskeeper.Keeper.GetAllHostZoneConfig`: every current registry entry. -/
def getAllHostZoneConfig (k : FeeAbsKeeper) : List HostChainFeeAbsConfig :=
  k.hostZoneConfigs

/-- `feeabskeeper.Keeper.GetTwapRate`: the exchange rate recorded for an IBC
denom; an error when none is recorded. -/
def getTwapRate (k : FeeAbsKeeper) (denom : String) : Except SdkError Nat :=
  match k.twapRates denom with
  | some r => .ok r
  | none => .error .twapNotFound

/-- The slice of the staking keeper the resolver reads. -/
structure StakingKeeper where
  bondDenom : Option String

/-- `StakingKeeper.BondDenom`: the native bonded denom, or an error. -/
def StakingKeeper.BondDenom (k : StakingKeeper) : Except SdkError String :=
  match k.bondDenom with
  | some d => .ok d
  | none => .error .bondDenomErr

/-- `DenomResolverImpl`: eve's implementation of x/feemarket's DenomResolver. -/
structure DenomResolverImpl where
  feeabsKeeper : FeeAbsKeeper
  stakingKeeper : StakingKeeper

/-! ## Resolver functions (`app/ante/ante.go`) -/

/-- `DenomResolverImpl.verifyIBCCoins`: error unless the bundle is exactly one
coin whose denom has a host zone config. -/
def verifyIBCCoins (k : FeeAbsKeeper) (ibcCoins : List Coin) :
    Except SdkError Unit :=
  match ibcCoins with
  | [c] =>
    if hasHostZoneConfig k c.denom then .ok ()
    else .error (.unsupportedDenom c.denom)
  | _ => .error .invalidIBCFees

/-- `DenomResolverImpl.getIBCCoinFromNative`: require exactly one coin, divide
its amount by the TWAP rate of the config's IBC denom, round to integer, and
verify the resulting IBC coin. -/
def getIBCCoinFromNative (k : FeeAbsKeeper) (nativeCoins : List Coin)
    (chainConfig : HostChainFeeAbsConfig) : Except SdkError (List Coin) :=
  match nativeCoins with
  | [nativeCoin] =>
    (getTwapRate k chainConfig.ibcDenom).bind fun twapRate =>
      let ibcAmount := decRoundInt (decQuo (toLegacyDec nativeCoin.amount) twapRate)
      let ibcCoin : Coin := { denom := chainConfig.ibcDenom, amount := ibcAmount }
      (verifyIBCCoins k (newCoins [ibcCoin])).bind fun _ =>
        .ok (newCoins [ibcCoin])
  | _ => .error (.expectedOneNativeCoin nativeCoins.length)

/-- Modelled from the spec: `feeabskeeper.Keeper.CalculateNativeFromIBCCoins`
is code of the external fee-abstraction dependency, not under src/.  Per the
spec (§4.2, ResolveFromNative): the same single-coin and registry-presence
checks as the to-native direction, then multiply the amount by the registered
exchange rate and round half away from zero to the native integer unit. -/
def calculateNativeFromIBCCoins (k : FeeAbsKeeper) (ibcCoins : List Coin)
    (chainConfig : HostChainFeeAbsConfig) : Except SdkError (List Coin) :=
  (verifyIBCCoins k ibcCoins).bind fun _ =>
    match ibcCoins with
    | [ibcCoin] =>
      (getTwapRate k ibcCoin.denom).bind fun twapRate =>
        let nativeAmount := decRoundInt (decMulInt twapRate ibcCoin.amount)
        .ok (newCoins [{ denom := k.nativeDenom, amount := nativeAmount }])
    | _ => .error .invalidIBCFees

/-- The `amount[0]` access of `ConvertToDenom`, relabelled into the requested
denom via `NewDecCoinFromDec`.  In Go an empty list would make the index
panic; that branch is statically unreachable because both conversion helpers
only succeed with a singleton, and is embedded as an error. -/
def firstCoinAsDecCoin (denom : String) : List Coin → Except SdkError DecCoin
  | a0 :: _ => .ok { denom := denom, amount := toLegacyDec a0.amount }
  | [] => .error .invalidIBCFees

/-- The body of `ConvertToDenom` after the bond-denom lookup succeeds (the
remainder of the Go function, split out to name the continuation). -/
def convertToDenomBody (r : DenomResolverImpl) (coin : DecCoin)
    (denom bondDenom : String) : Except SdkError DecCoin :=
  if denom = bondDenom then
    match getHostZoneConfig r.feeabsKeeper coin.denom with
    | none => .error .errorResolvingDenom
    | some hostZoneConfig =>
      (getIBCCoinFromNative r.feeabsKeeper
          (newCoins [{ denom := coin.denom, amount := truncateInt coin.amount }])
          hostZoneConfig).bind (firstCoinAsDecCoin denom)
  else
    match getHostZoneConfig r.feeabsKeeper denom with
    | none => .error .errorResolvingDenom
    | some hostZoneConfig =>
      (calculateNativeFromIBCCoins r.feeabsKeeper
          (newCoins [{ denom := denom, amount := truncateInt coin.amount }])
          hostZoneConfig).bind (firstCoinAsDecCoin denom)

/-- `DenomResolverImpl.ConvertToDenom`: return the equivalent DecCoin in the
given denom.  When the target is the bond denom, convert via
`getIBCCoinFromNative`; otherwise via the external
`CalculateNativeFromIBCCoins`. -/
def ConvertToDenom (r : DenomResolverImpl) (coin : DecCoin) (denom : String) :
    Except SdkError DecCoin :=
  (r.stakingKeeper.BondDenom).bind (convertToDenomBody r coin denom)

/-- `DenomResolverImpl.ExtraDenoms`: the IBC denom of every host zone config
currently in the registry. -/
def ExtraDenoms (r : DenomResolverImpl) : Except SdkError (List String) :=
  .ok ((getAllHostZoneConfig r.feeabsKeeper).map (fun cfg => cfg.ibcDenom))

/-! ## The ante decorator chain (`NewAnteHandler`) -/

/-- One decorator of the admission pipeline, labelled by its constructor in
`NewAnteHandler`.  `feeMarketCheck` records the decorator it wraps. -/
inductive AnteStage where
  | setUpContext
  | limitSimulationGas
  | countTX
  | gasRegister
  | circuitBreaker
  | extensionOptions
  | feeMarketCheck (inner : AnteStage)
  | validateBasic
  | txTimeoutHeight
  | validateMemo
  | consumeGasForTxSize
  | deductFee
  | setPubKey
  | validateSigCount
  | sigGasConsume
  | sigVerification
  | incrementSequence
  | redundantRelay
deriving DecidableEq, BEq

/-- The decorator list of `NewAnteHandler`, in source order. -/
def anteDecorators : List AnteStage :=
  [ .setUpContext,
    .limitSimulationGas,
    .countTX,
    .gasRegister,
    .circuitBreaker,
    .extensionOptions,
    .feeMarketCheck .deductFee,
    .validateBasic,
    .txTimeoutHeight,
    .validateMemo,
    .consumeGasForTxSize,
    .deductFee,
    .setPubKey,
    .validateSigCount,
    .sigGasConsume,
    .sigVerification,
    .incrementSequence,
    .redundantRelay ]

/-- The nilability of each `HandlerOptions` field that `NewAnteHandler` checks
or dereferences (`true` means the dependency is non-nil). -/
structure HandlerOptions where
  accountKeeper : Bool
  bankKeeper : Bool
  signModeHandler : Bool
  feegrantKeeper : Bool
  wasmConfig : Bool
  wasmKeeper : Bool
  txCounterStoreService : Bool
  circuitKeeper : Bool
  ibcKeeper : Bool
  feeMarketKeeper : Bool
deriving DecidableEq

/-- Outcome of `NewAnteHandler`: an explicit error return, a Go runtime fault
(nil-pointer dereference), or the chained handler. -/
inductive AnteHandlerResult where
  | err (msg : String)
  | nilDeref
  | ok (chain : List AnteStage)
deriving DecidableEq

/-- `true` exactly on the explicit error returns of `NewAnteHandler`. -/
def AnteHandlerResult.isErr : AnteHandlerResult → Bool
  | .err _ => true
  | _ => false

/-- `NewAnteHandler`: six nil checks in source order, then the decorator list.
`options.WasmKeeper.GetGasRegister()` is evaluated while building the list
without a preceding nil check, so a nil `WasmKeeper` dereferences nil. -/
def NewAnteHandler (options : HandlerOptions) : AnteHandlerResult :=
  if options.accountKeeper = false then .err "account keeper is required for ante builder"
  else if options.bankKeeper = false then .err "bank keeper is required for ante builder"
  else if options.signModeHandler = false then .err "sign mode handler is required for ante builder"
  else if options.wasmConfig = false then .err "wasm config is required for ante builder"
  else if options.txCounterStoreService = false then .err "wasm store service is required for ante builder"
  else if options.circuitKeeper = false then .err "circuit keeper is required for ante builder"
  else if options.wasmKeeper = false then .nilDeref
  else .ok anteDecorators

/-- Number of `DeductFeeDecorator` constructions inside one stage label
(counting through the `feeMarketCheck` wrapper). -/
def deductFeeOccurrences : AnteStage → Nat
  | .feeMarketCheck inner => deductFeeOccurrences inner
  | .deductFee => 1
  | _ => 0

/-! ## Claims about the decorator chain -/

/-- C1 counterexample: in `anteDecorators` the fee stage — the fee-market
check wrapping the deduct-fee stage — sits at index 6, strictly before the
structural-validation stage (index 7) and before the size-based
gas-consumption stage (index 10), refuting the claimed order. -/
theorem feeMarket_before_validateBasic :
    anteDecorators.indexOf (.feeMarketCheck .deductFee) = 6 ∧
    anteDecorators.indexOf .validateBasic = 7 ∧
    anteDecorators.indexOf .consumeGasForTxSize = 10 ∧
    anteDecorators.indexOf (.feeMarketCheck .deductFee) <
      anteDecorators.indexOf .validateBasic ∧
    anteDecorators.indexOf (.feeMarketCheck .deductFee) <
      anteDecorators.indexOf .consumeGasForTxSize := by
  decide

/-- C1 amended: the fee-market check wrapping deduct-fee precedes structural
validation and size-based gas consumption; the second, standalone deduct-fee
stage is the one placed after size-based gas consumption; both fee stages
precede the signature-verification stages. -/
theorem feeStage_positions :
    anteDecorators.indexOf (.feeMarketCheck .deductFee) <
      anteDecorators.indexOf .validateBasic ∧
    anteDecorators.indexOf (.feeMarketCheck .deductFee) <
      anteDecorators.indexOf .consumeGasForTxSize ∧
    anteDecorators.indexOf .consumeGasForTxSize <
      anteDecorators.indexOf .deductFee ∧
    anteDecorators.indexOf .deductFee < anteDecorators.indexOf .setPubKey ∧
    anteDecorators.indexOf .deductFee < anteDecorators.indexOf .sigVerification ∧
    anteDecorators.indexOf (.feeMarketCheck .deductFee) <
      anteDecorators.indexOf .sigVerification := by
  decide

/-- C7: public-key materialization precedes the signature-count,
signature-gas, signature-verification and sequence-increment stages, and the
sequence increment comes after signature verification, last among the
signer-related stages. -/
theorem setPubKey_first_incrementSequence_last :
    anteDecorators.indexOf .setPubKey < anteDecorators.indexOf .validateSigCount ∧
    anteDecorators.indexOf .setPubKey < anteDecorators.indexOf .sigGasConsume ∧
    anteDecorators.indexOf .setPubKey < anteDecorators.indexOf .sigVerification ∧
    anteDecorators.indexOf .setPubKey < anteDecorators.indexOf .incrementSequence ∧
    anteDecorators.indexOf .validateSigCount < anteDecorators.indexOf .incrementSequence ∧
    anteDecorators.indexOf .sigGasConsume < anteDecorators.indexOf .incrementSequence ∧
    anteDecorators.indexOf .sigVerification < anteDecorators.indexOf .incrementSequence := by
  decide

/-- C10: the chain holds the deduct-fee decorator at two distinct positions —
nested inside the fee-market check at index 6 and standalone at index 11
(after size-based gas consumption at index 10) — and these are the only two
constructions of it in the chain. -/
theorem deductFee_twice :
    anteDecorators[6]? = some (.feeMarketCheck .deductFee) ∧
    anteDecorators[11]? = some .deductFee ∧
    (anteDecorators.map deductFeeOccurrences).sum = 2 ∧
    anteDecorators.indexOf .consumeGasForTxSize = 10 := by
  decide

/-- A `HandlerOptions` with the six checked dependencies present but a nil
`WasmKeeper`. -/
def optionsNilWasmKeeper : HandlerOptions :=
  { accountKeeper := true, bankKeeper := true, signModeHandler := true,
    feegrantKeeper := true, wasmConfig := true, wasmKeeper := false,
    txCounterStoreService := true, circuitKeeper := true, ibcKeeper := true,
    feeMarketKeeper := true }

/-- C9 counterexample: with all six checked dependencies non-nil but
`WasmKeeper` nil, `NewAnteHandler` neither returns an error nor the chained
handler — it dereferences a nil pointer. -/
theorem newAnteHandler_nilWasmKeeper :
    optionsNilWasmKeeper.accountKeeper = true ∧
    optionsNilWasmKeeper.bankKeeper = true ∧
    optionsNilWasmKeeper.signModeHandler = true ∧
    optionsNilWasmKeeper.wasmConfig = true ∧
    optionsNilWasmKeeper.txCounterStoreService = true ∧
    optionsNilWasmKeeper.circuitKeeper = true ∧
    NewAnteHandler optionsNilWasmKeeper = .nilDeref ∧
    NewAnteHandler optionsNilWasmKeeper ≠ .ok anteDecorators := by
  decide

/-- C9 amended: `NewAnteHandler` returns an explicit error exactly when one
of the six checked dependencies is nil; with the six present it returns the
chained decorator list when `WasmKeeper` is also non-nil, and hits a nil
dereference when `WasmKeeper` is nil. -/
theorem newAnteHandler_characterization
    (a b s fg wc wk tc ck ibc fm : Bool) :
    ((NewAnteHandler ⟨a, b, s, fg, wc, wk, tc, ck, ibc, fm⟩).isErr = true ↔
      ¬(a = true ∧ b = true ∧ s = true ∧ wc = true ∧ tc = true ∧ ck = true)) ∧
    (NewAnteHandler ⟨a, b, s, fg, wc, wk, tc, ck, ibc, fm⟩ = .ok anteDecorators ↔
      (a = true ∧ b = true ∧ s = true ∧ wc = true ∧ tc = true ∧ ck = true ∧
        wk = true)) ∧
    (NewAnteHandler ⟨a, b, s, fg, wc, wk, tc, ck, ibc, fm⟩ = .nilDeref ↔
      (a = true ∧ b = true ∧ s = true ∧ wc = true ∧ tc = true ∧ ck = true ∧
        wk = false)) := by
  cases a <;> cases b <;> cases s <;> cases wc <;> cases tc <;> cases ck <;>
    cases wk <;> simp [NewAnteHandler, AnteHandlerResult.isErr]

/-! ## Arithmetic lemmas about half-away-from-zero rounding -/

theorem decPrecision_pos : 0 < decPrecision := by norm_num [decPrecision]

/-- Rounding an exact multiple of the divisor recovers the quotient. -/
theorem roundHalfNat_mul_cancel (k b : Nat) (hb : 0 < b) :
    roundHalfNat (k * b) b = k := by
  unfold roundHalfNat
  have h1 : 2 * (k * b) + b = b * (2 * k + 1) := by ring
  have h2 : 2 * b = b * 2 := by ring
  rw [h1, h2, Nat.mul_div_mul_left _ _ hb]
  omega

/-- Half-away rounding is invariant under scaling numerator and denominator. -/
theorem roundHalfNat_scale (a b c : Nat) (hc : 0 < c) :
    roundHalfNat (a * c) (b * c) = roundHalfNat a b := by
  unfold roundHalfNat
  have h1 : 2 * (a * c) + b * c = (2 * a + b) * c := by ring
  have h2 : 2 * (b * c) = 2 * b * c := by ring
  rw [h1, h2, Nat.mul_div_mul_right _ _ hc]

/-- The rounded quotient is within half a denominator of the numerator. -/
theorem roundHalfNat_dist (a b : Nat) (hb : 0 < b) :
    2 * Nat.dist (roundHalfNat a b * b) a ≤ b := by
  unfold roundHalfNat
  have hd := Nat.div_add_mod (2 * a + b) (2 * b)
  have hm : (2 * a + b) % (2 * b) < 2 * b := Nat.mod_lt _ (by omega)
  set q := (2 * a + b) / (2 * b) with hq
  have hA : 2 * (q * b) ≤ 2 * a + b := by
    have he : 2 * (q * b) = q * (2 * b) := by ring
    rw [he, hq]
    exact Nat.div_mul_le_self _ _
  have hB : 2 * a + b < 2 * (q * b) + 2 * b := by
    have he : 2 * (q * b) = 2 * b * q := by ring
    calc 2 * a + b = 2 * b * q + (2 * a + b) % (2 * b) := hd.symm
    _ < 2 * b * q + 2 * b := by omega
    _ = 2 * (q * b) + 2 * b := by rw [he]
  unfold Nat.dist
  omega

/-- The rounded quotient is nonzero exactly when the fraction is at least a
half. -/
theorem roundHalfNat_one_le {a b : Nat} (hb : 0 < b) :
    1 ≤ roundHalfNat a b ↔ b ≤ 2 * a := by
  unfold roundHalfNat
  rw [Nat.one_le_div_iff (by omega)]
  omega

/-- When the exchange-rate quotient is exactly representable at 18 decimal
places, `Quo` then `RoundInt` — the double rounding performed by
`getIBCCoinFromNative` — computes the single half-away-from-zero rounding of
the exact quotient `n / rate`. -/
theorem decRoundInt_decQuo_exact (n rate : Nat) (hrate : 0 < rate)
    (hdvd : rate ∣ n * 10 ^ 36) :
    decRoundInt (decQuo (toLegacyDec n) rate) =
      roundHalfNat (n * decPrecision) rate := by
  unfold decRoundInt decQuo toLegacyDec
  have e1 : n * decPrecision * 10 ^ 36 = decPrecision * (n * 10 ^ 36) := by ring
  have h1 : n * decPrecision * 10 ^ 36 / rate = n * 10 ^ 36 / rate * decPrecision := by
    rw [e1, Nat.mul_div_assoc _ hdvd]
    ring
  rw [h1, roundHalfNat_mul_cancel (n * 10 ^ 36 / rate) decPrecision decPrecision_pos]
  have h2 : n * 10 ^ 36 / rate * rate = n * 10 ^ 36 := Nat.div_mul_cancel hdvd
  have h3 : roundHalfNat (n * 10 ^ 36 / rate) decPrecision
      = roundHalfNat (n * 10 ^ 36 / rate * rate) (decPrecision * rate) :=
    (roundHalfNat_scale _ _ rate hrate).symm
  have h4 : roundHalfNat (n * decPrecision) rate
      = roundHalfNat (n * decPrecision * decPrecision) (rate * decPrecision) :=
    (roundHalfNat_scale _ _ decPrecision decPrecision_pos).symm
  rw [h3, h4, h2]
  have h5 : n * 10 ^ 36 = n * decPrecision * decPrecision := by
    unfold decPrecision
    ring
  rw [h5, Nat.mul_comm decPrecision rate]

/-! ## Evaluation lemmas for the resolver -/

/-- A successful registry lookup returns the entry stored under the queried
denom. -/
theorem getHostZoneConfig_ibcDenom {k : FeeAbsKeeper} {d : String}
    {cfg : HostChainFeeAbsConfig} (h : getHostZoneConfig k d = some cfg) :
    cfg.ibcDenom = d := by
  have := List.find?_some h
  simpa using this

/-- `sdk.NewCoins` keeps a single nonzero coin. -/
theorem newCoins_singleton {c : Coin} (h : c.amount ≠ 0) : newCoins [c] = [c] := by
  simp [newCoins, h]

/-- Bind on a successful `Except` applies the continuation. -/
theorem except_bind_ok {ε α β : Type} (a : α) (f : α → Except ε β) :
    (Except.ok a : Except ε α).bind f = f a := rfl

/-- Bind on a failed `Except` propagates the error. -/
theorem except_bind_error {ε α β : Type} (e : ε) (f : α → Except ε β) :
    (Except.error e : Except ε α).bind f = .error e := rfl

/-- Evaluation of `getIBCCoinFromNative` on a registered denom with a recorded
TWAP rate and a nonzero rounded result. -/
theorem getIBCCoinFromNative_eval (k : FeeAbsKeeper) (X : String) (n rate : Nat)
    (cfg : HostChainFeeAbsConfig)
    (hib : cfg.ibcDenom = X)
    (hpres : hasHostZoneConfig k X = true)
    (htwap : k.twapRates X = some rate)
    (hm : decRoundInt (decQuo (toLegacyDec n) rate) ≠ 0) :
    getIBCCoinFromNative k [⟨X, n⟩] cfg =
      .ok [⟨X, decRoundInt (decQuo (toLegacyDec n) rate)⟩] := by
  have ht : getTwapRate k X = .ok rate := by
    unfold getTwapRate
    rw [htwap]
  have hc : newCoins [(⟨X, decRoundInt (decQuo (toLegacyDec n) rate)⟩ : Coin)] =
      [⟨X, decRoundInt (decQuo (toLegacyDec n) rate)⟩] := newCoins_singleton hm
  have hv : verifyIBCCoins k [(⟨X, decRoundInt (decQuo (toLegacyDec n) rate)⟩ : Coin)] = .ok () := by
    unfold verifyIBCCoins
    simp [hpres]
  unfold getIBCCoinFromNative
  rw [hib, ht]
  show ((Except.ok rate : Except SdkError Nat).bind (fun twapRate =>
      let ibcAmount := decRoundInt (decQuo (toLegacyDec n) twapRate)
      let ibcCoin : Coin := { denom := X, amount := ibcAmount }
      (verifyIBCCoins k (newCoins [ibcCoin])).bind fun _ =>
        Except.ok (newCoins [ibcCoin]))) = _
  rw [except_bind_ok]
  show ((verifyIBCCoins k (newCoins [(⟨X, decRoundInt (decQuo (toLegacyDec n) rate)⟩ : Coin)])).bind
      fun _ => Except.ok (newCoins [(⟨X, decRoundInt (decQuo (toLegacyDec n) rate)⟩ : Coin)])) = _
  rw [hc, hv]
  rfl

/-- A registry hit makes `hasHostZoneConfig` true. -/
theorem hasHostZoneConfig_of_get {k : FeeAbsKeeper} {d : String}
    {cfg : HostChainFeeAbsConfig} (h : getHostZoneConfig k d = some cfg) :
    hasHostZoneConfig k d = true := by
  unfold hasHostZoneConfig
  rw [h]
  rfl

instance {ε α : Type} [DecidableEq ε] [DecidableEq α] :
    DecidableEq (Except ε α) := fun x y =>
  match x, y with
  | .error e1, .error e2 => decidable_of_iff (e1 = e2) (by simp)
  | .ok a1, .ok a2 => decidable_of_iff (a1 = a2) (by simp)
  | .error _, .ok _ => isFalse (by simp)
  | .ok _, .error _ => isFalse (by simp)

/-- Evaluation of the external conversion model on a registered denom. -/
theorem calculateNativeFromIBCCoins_eval (k : FeeAbsKeeper) (X : String)
    (m rate : Nat) (cfg : HostChainFeeAbsConfig)
    (hpres : hasHostZoneConfig k X = true)
    (htwap : k.twapRates X = some rate)
    (hres : decRoundInt (decMulInt rate m) ≠ 0) :
    calculateNativeFromIBCCoins k [⟨X, m⟩] cfg =
      .ok [⟨k.nativeDenom, decRoundInt (decMulInt rate m)⟩] := by
  have hv : verifyIBCCoins k [(⟨X, m⟩ : Coin)] = .ok () := by
    unfold verifyIBCCoins
    simp [hpres]
  have ht : getTwapRate k X = .ok rate := by
    unfold getTwapRate
    rw [htwap]
  have hc : newCoins [(⟨k.nativeDenom, decRoundInt (decMulInt rate m)⟩ : Coin)] =
      [⟨k.nativeDenom, decRoundInt (decMulInt rate m)⟩] := newCoins_singleton hres
  unfold calculateNativeFromIBCCoins
  rw [hv, except_bind_ok]
  show ((getTwapRate k (⟨X, m⟩ : Coin).denom).bind fun twapRate =>
      let nativeAmount := decRoundInt (decMulInt twapRate (⟨X, m⟩ : Coin).amount)
      Except.ok (newCoins [{ denom := k.nativeDenom, amount := nativeAmount }])) = _
  rw [show (⟨X, m⟩ : Coin).denom = X from rfl, ht, except_bind_ok]
  show Except.ok (newCoins [(⟨k.nativeDenom, decRoundInt (decMulInt rate m)⟩ : Coin)]) = _
  rw [hc]

/-- Evaluation of `ConvertToDenom` in the to-native direction (target denom is
the bond denom) on a registered coin denom with a recorded rate, a nonzero
input amount and a nonzero rounded result. -/
theorem convertToDenom_toNative_eval
    (r : DenomResolverImpl) (bd X : String) (n rate : Nat)
    (cfg : HostChainFeeAbsConfig)
    (hbd : r.stakingKeeper.bondDenom = some bd)
    (hcfg : getHostZoneConfig r.feeabsKeeper X = some cfg)
    (htwap : r.feeabsKeeper.twapRates X = some rate)
    (hn : n ≠ 0)
    (hm : decRoundInt (decQuo (toLegacyDec n) rate) ≠ 0) :
    ConvertToDenom r ⟨X, n * decPrecision⟩ bd =
      .ok ⟨bd, toLegacyDec (decRoundInt (decQuo (toLegacyDec n) rate))⟩ := by
  have hib : cfg.ibcDenom = X := getHostZoneConfig_ibcDenom hcfg
  have hpres : hasHostZoneConfig r.feeabsKeeper X = true := hasHostZoneConfig_of_get hcfg
  have hBond : r.stakingKeeper.BondDenom = .ok bd := by
    unfold StakingKeeper.BondDenom
    rw [hbd]
  have htr : truncateInt (⟨X, n * decPrecision⟩ : DecCoin).amount = n :=
    Nat.mul_div_left n decPrecision_pos
  have hnc : newCoins [(⟨X, n⟩ : Coin)] = [⟨X, n⟩] := newCoins_singleton hn
  have hEval := getIBCCoinFromNative_eval r.feeabsKeeper X n rate cfg hib hpres htwap hm
  unfold ConvertToDenom
  rw [hBond, except_bind_ok]
  unfold convertToDenomBody
  rw [if_pos rfl, show (⟨X, n * decPrecision⟩ : DecCoin).denom = X from rfl, htr, hcfg]
  show ((getIBCCoinFromNative r.feeabsKeeper (newCoins [(⟨X, n⟩ : Coin)]) cfg).bind
      (firstCoinAsDecCoin bd)) = _
  rw [hnc, hEval, except_bind_ok]
  rfl

/-- Evaluation of `ConvertToDenom` in the from-native direction (target denom
is a registered foreign denom, distinct from the bond denom). -/
theorem convertToDenom_fromNative_eval
    (r : DenomResolverImpl) (bd X : String) (m rate : Nat)
    (cfg : HostChainFeeAbsConfig)
    (hbd : r.stakingKeeper.bondDenom = some bd)
    (hXbd : X ≠ bd)
    (hcfg : getHostZoneConfig r.feeabsKeeper X = some cfg)
    (htwap : r.feeabsKeeper.twapRates X = some rate)
    (hm : m ≠ 0)
    (hres : decRoundInt (decMulInt rate m) ≠ 0) :
    ConvertToDenom r ⟨bd, m * decPrecision⟩ X =
      .ok ⟨X, toLegacyDec (decRoundInt (decMulInt rate m))⟩ := by
  have hpres : hasHostZoneConfig r.feeabsKeeper X = true := hasHostZoneConfig_of_get hcfg
  have hBond : r.stakingKeeper.BondDenom = .ok bd := by
    unfold StakingKeeper.BondDenom
    rw [hbd]
  have htr : truncateInt (⟨bd, m * decPrecision⟩ : DecCoin).amount = m :=
    Nat.mul_div_left m decPrecision_pos
  have hnc : newCoins [(⟨X, m⟩ : Coin)] = [⟨X, m⟩] := newCoins_singleton hm
  have hEval := calculateNativeFromIBCCoins_eval r.feeabsKeeper X m rate cfg hpres htwap hres
  unfold ConvertToDenom
  rw [hBond, except_bind_ok]
  unfold convertToDenomBody
  rw [if_neg hXbd, htr, hcfg]
  show ((calculateNativeFromIBCCoins r.feeabsKeeper (newCoins [(⟨X, m⟩ : Coin)]) cfg).bind
      (firstCoinAsDecCoin X)) = _
  rw [hnc, hEval, except_bind_ok]
  rfl

/-- With an exactly-representable quotient (the rate divides `n·10^36`) and a
nonzero rounded result, the to-native conversion returns the single
half-away-from-zero rounding of the exact quotient `n / rate`. -/
theorem toNative_exact (r : DenomResolverImpl) (bd X : String) (n rate : Nat)
    (cfg : HostChainFeeAbsConfig)
    (hbd : r.stakingKeeper.bondDenom = some bd)
    (hcfg : getHostZoneConfig r.feeabsKeeper X = some cfg)
    (htwap : r.feeabsKeeper.twapRates X = some rate)
    (hrate : 0 < rate)
    (hdvd : rate ∣ n * 10 ^ 36)
    (hpos : 1 ≤ roundHalfNat (n * decPrecision) rate) :
    ConvertToDenom r ⟨X, n * decPrecision⟩ bd =
      .ok ⟨bd, toLegacyDec (roundHalfNat (n * decPrecision) rate)⟩ := by
  have hkey := decRoundInt_decQuo_exact n rate hrate hdvd
  have hm : decRoundInt (decQuo (toLegacyDec n) rate) ≠ 0 := by
    rw [hkey]
    omega
  have hn : n ≠ 0 := by
    intro h0
    have h2 := (roundHalfNat_one_le hrate).mp hpos
    rw [h0] at h2
    simp at h2
    omega
  have h := convertToDenom_toNative_eval r bd X n rate cfg hbd hcfg htwap hn hm
  rw [hkey] at h
  exact h

/-! ## Concrete fixtures -/

/-- Fixture: one enabled registry entry for `ibc/XYZ` at rate 2.0. -/
def sampleKeeper : FeeAbsKeeper :=
  { hostZoneConfigs := [⟨"ibc/XYZ", "uosmo", 1, .updated⟩],
    twapRates := fun d => if d = "ibc/XYZ" then some (2 * decPrecision) else none,
    nativeDenom := "stake" }

/-- Fixture resolver around `sampleKeeper`, bond denom `stake`. -/
def sampleResolver : DenomResolverImpl :=
  { feeabsKeeper := sampleKeeper, stakingKeeper := { bondDenom := some "stake" } }

/-- Fixture: one registry entry for `ibc/ABC` that is present but frozen
(disabled), with a recorded rate of 2.0. -/
def frozenKeeper : FeeAbsKeeper :=
  { hostZoneConfigs := [⟨"ibc/ABC", "uosmo", 7, .frozen⟩],
    twapRates := fun d => if d = "ibc/ABC" then some (2 * decPrecision) else none,
    nativeDenom := "stake" }

/-- Fixture resolver around `frozenKeeper`. -/
def frozenResolver : DenomResolverImpl :=
  { feeabsKeeper := frozenKeeper, stakingKeeper := { bondDenom := some "stake" } }

/-- Fixture: enabled entry for `ibc/BIG` at the huge rate 10^19 (mantissa
10^37), which exposes the double rounding of `Quo` + `RoundInt`. -/
def bigKeeper : FeeAbsKeeper :=
  { hostZoneConfigs := [⟨"ibc/BIG", "uosmo", 2, .updated⟩],
    twapRates := fun d => if d = "ibc/BIG" then some (10 ^ 37) else none,
    nativeDenom := "stake" }

/-- Fixture resolver around `bigKeeper`. -/
def bigResolver : DenomResolverImpl :=
  { feeabsKeeper := bigKeeper, stakingKeeper := { bondDenom := some "stake" } }

/-- Fixture: enabled entry for `ibc/FIVE` at rate 5.0. -/
def fiveKeeper : FeeAbsKeeper :=
  { hostZoneConfigs := [⟨"ibc/FIVE", "uosmo", 3, .updated⟩],
    twapRates := fun d => if d = "ibc/FIVE" then some (5 * decPrecision) else none,
    nativeDenom := "stake" }

/-- Fixture resolver around `fiveKeeper`. -/
def fiveResolver : DenomResolverImpl :=
  { feeabsKeeper := fiveKeeper, stakingKeeper := { bondDenom := some "stake" } }

/-! ## Claims about the resolver -/

/-- C2 counterexample: a denomination that is present in the registry but
disabled (frozen) is converted without error — the resolver never consults
the enable flag, refuting the claim that disabled assets fail. -/
theorem convertToDenom_frozen_accepted :
    frozenResolver.feeabsKeeper.hostZoneConfigs =
      [⟨"ibc/ABC", "uosmo", 7, .frozen⟩] ∧
    ConvertToDenom frozenResolver ⟨"ibc/ABC", 10 * decPrecision⟩ "stake" =
      .ok ⟨"stake", 5 * decPrecision⟩ := by
  decide

/-- C2 amended: for every coin whose denomination is absent from the Host
Zone Config registry, both resolver directions of `ConvertToDenom` fail with
an error and produce no converted coin; the enabled/disabled status of a
present entry is never consulted. -/
theorem convertToDenom_absent_fails
    (r : DenomResolverImpl) (bd X : String) (a c : Nat)
    (hbd : r.stakingKeeper.bondDenom = some bd)
    (habs : getHostZoneConfig r.feeabsKeeper X = none) :
    ConvertToDenom r ⟨X, a⟩ bd = .error .errorResolvingDenom ∧
    ConvertToDenom r ⟨bd, c⟩ X = .error .errorResolvingDenom := by
  have hBond : r.stakingKeeper.BondDenom = .ok bd := by
    unfold StakingKeeper.BondDenom
    rw [hbd]
  constructor
  · unfold ConvertToDenom
    rw [hBond, except_bind_ok]
    unfold convertToDenomBody
    rw [if_pos rfl, show (⟨X, a⟩ : DecCoin).denom = X from rfl, habs]
  · unfold ConvertToDenom
    rw [hBond, except_bind_ok]
    unfold convertToDenomBody
    by_cases hxb : X = bd
    · rw [if_pos hxb, show (⟨bd, c⟩ : DecCoin).denom = bd from rfl, ← hxb, habs]
    · rw [if_neg hxb, habs]

/-- C2 witness: on the sample registry, an unregistered coin denom fails in
both directions. -/
theorem convertToDenom_absent_fails_witness :
    ConvertToDenom sampleResolver ⟨"ibc/NOPE", 3⟩ "stake" =
      .error .errorResolvingDenom ∧
    ConvertToDenom sampleResolver ⟨"stake", 4⟩ "ibc/NOPE" =
      .error .errorResolvingDenom :=
  convertToDenom_absent_fails sampleResolver "stake" "ibc/NOPE" 3 4 rfl (by decide)

/-- C3 counterexample: converting 4999999999999999995 units of `ibc/BIG`
(rate 10^19) to native yields 1 — the 18-decimal `Quo` rounds the exact
quotient 0.4999999999999999995 up to 0.5 before `RoundInt` rounds again —
while a single half-away-from-zero rounding of `n / rate` is 0. -/
theorem resolveToNative_double_rounding :
    bigResolver.feeabsKeeper.twapRates "ibc/BIG" = some (10 ^ 37) ∧
    ConvertToDenom bigResolver ⟨"ibc/BIG", 4999999999999999995 * decPrecision⟩ "stake" =
      .ok ⟨"stake", toLegacyDec 1⟩ ∧
    roundHalfNat (4999999999999999995 * decPrecision) (10 ^ 37) = 0 := by
  decide

/-- C3 amended: for every registered and enabled foreign asset with recorded
rate `rate` and every coin of integer amount `n`, resolving to the native
asset returns `n / rate` rounded half away from zero, provided the exact
quotient is representable at 18 decimal places (`rate ∣ n·10^36`; otherwise
the code double-rounds) and the rounded result is nonzero (a zero result is
rejected by coin sanitization). -/
theorem resolveToNative_rounds
    (r : DenomResolverImpl) (bd X : String) (n rate : Nat)
    (cfg : HostChainFeeAbsConfig)
    (hbd : r.stakingKeeper.bondDenom = some bd)
    (hcfg : getHostZoneConfig r.feeabsKeeper X = some cfg)
    (hstatus : cfg.status = .updated)
    (htwap : r.feeabsKeeper.twapRates X = some rate)
    (hrate : 0 < rate)
    (hdvd : rate ∣ n * 10 ^ 36)
    (hpos : 1 ≤ roundHalfNat (n * decPrecision) rate) :
    ConvertToDenom r ⟨X, n * decPrecision⟩ bd =
      .ok ⟨bd, toLegacyDec (roundHalfNat (n * decPrecision) rate)⟩ :=
  toNative_exact r bd X n rate cfg hbd hcfg htwap hrate hdvd hpos

/-- C3 witness: 10 units of `ibc/XYZ` at rate 2.0 resolve to 5 native units. -/
theorem resolveToNative_rounds_witness :
    ConvertToDenom sampleResolver ⟨"ibc/XYZ", 10 * decPrecision⟩ "stake" =
      .ok ⟨"stake", toLegacyDec (roundHalfNat (10 * decPrecision) (2 * decPrecision))⟩ :=
  resolveToNative_rounds sampleResolver "stake" "ibc/XYZ" 10 (2 * decPrecision)
    ⟨"ibc/XYZ", "uosmo", 1, .updated⟩ rfl (by decide) rfl (by decide) (by decide)
    ⟨5 * 10 ^ 18, by norm_num [decPrecision]⟩ (by decide)

/-- C4 counterexample: at rate 5.0, 7 units of `ibc/FIVE` resolve to native 1,
which resolves back to 5 units — a round-trip error of 2 units, more than one
rounding unit of the foreign asset. -/
theorem resolver_roundTrip_gap :
    ConvertToDenom fiveResolver ⟨"ibc/FIVE", 7 * decPrecision⟩ "stake" =
      .ok ⟨"stake", toLegacyDec 1⟩ ∧
    ConvertToDenom fiveResolver ⟨"stake", toLegacyDec 1⟩ "ibc/FIVE" =
      .ok ⟨"ibc/FIVE", toLegacyDec 5⟩ ∧
    1 < Nat.dist 5 7 := by
  decide

/-- C4 amended: with an exactly-representable quotient, `ResolveToNative(n·X)`
equals `round(n / rate)` half away from zero, and the round trip
`ResolveFromNative(ResolveToNative(c))` recovers `c` to within
`(rate + 1) / 2` foreign units (not one unit): scaled by the Dec precision,
`2·(dist·10^18) ≤ rate + 10^18`. -/
theorem resolver_roundTrip
    (r : DenomResolverImpl) (bd X : String) (n rate : Nat)
    (cfg : HostChainFeeAbsConfig)
    (hbd : r.stakingKeeper.bondDenom = some bd)
    (hXbd : X ≠ bd)
    (hcfg : getHostZoneConfig r.feeabsKeeper X = some cfg)
    (htwap : r.feeabsKeeper.twapRates X = some rate)
    (hrate : 0 < rate)
    (hdvd : rate ∣ n * 10 ^ 36)
    (hm1 : 1 ≤ roundHalfNat (n * decPrecision) rate)
    (hm2 : 1 ≤ roundHalfNat (rate * roundHalfNat (n * decPrecision) rate) decPrecision) :
    ConvertToDenom r ⟨X, n * decPrecision⟩ bd =
      .ok ⟨bd, toLegacyDec (roundHalfNat (n * decPrecision) rate)⟩ ∧
    ConvertToDenom r ⟨bd, toLegacyDec (roundHalfNat (n * decPrecision) rate)⟩ X =
      .ok ⟨X, toLegacyDec
        (roundHalfNat (rate * roundHalfNat (n * decPrecision) rate) decPrecision)⟩ ∧
    2 * (Nat.dist (roundHalfNat (rate * roundHalfNat (n * decPrecision) rate)
        decPrecision) n * decPrecision) ≤ rate + decPrecision := by
  have part1 := toNative_exact r bd X n rate cfg hbd hcfg htwap hrate hdvd hm1
  have hmne : roundHalfNat (n * decPrecision) rate ≠ 0 := by omega
  have hres : decRoundInt (decMulInt rate (roundHalfNat (n * decPrecision) rate)) ≠ 0 := by
    show roundHalfNat (rate * roundHalfNat (n * decPrecision) rate) decPrecision ≠ 0
    omega
  have part2 : ConvertToDenom r ⟨bd, toLegacyDec (roundHalfNat (n * decPrecision) rate)⟩ X =
      .ok ⟨X, toLegacyDec
        (roundHalfNat (rate * roundHalfNat (n * decPrecision) rate) decPrecision)⟩ :=
    convertToDenom_fromNative_eval r bd X (roundHalfNat (n * decPrecision) rate) rate cfg
      hbd hXbd hcfg htwap hmne hres
  refine ⟨part1, part2, ?_⟩
  have d1 := roundHalfNat_dist (n * decPrecision) rate hrate
  have hcomm : roundHalfNat (n * decPrecision) rate * rate =
      rate * roundHalfNat (n * decPrecision) rate := Nat.mul_comm _ _
  rw [hcomm] at d1
  have d2 := roundHalfNat_dist (rate * roundHalfNat (n * decPrecision) rate)
    decPrecision decPrecision_pos
  have tri := Nat.dist.triangle_inequality
    (roundHalfNat (rate * roundHalfNat (n * decPrecision) rate) decPrecision * decPrecision)
    (rate * roundHalfNat (n * decPrecision) rate)
    (n * decPrecision)
  have hdm := Nat.dist_mul_right
    (roundHalfNat (rate * roundHalfNat (n * decPrecision) rate) decPrecision)
    decPrecision n
  rw [hdm] at tri
  omega

/-- C4 witness: at rate 2.0 and 10 foreign units, the round trip recovers 10
exactly and the bound holds. -/
theorem resolver_roundTrip_witness :
    (ConvertToDenom sampleResolver ⟨"ibc/XYZ", 10 * decPrecision⟩ "stake" =
      .ok ⟨"stake", toLegacyDec (roundHalfNat (10 * decPrecision) (2 * decPrecision))⟩ ∧
    ConvertToDenom sampleResolver
        ⟨"stake", toLegacyDec (roundHalfNat (10 * decPrecision) (2 * decPrecision))⟩
        "ibc/XYZ" =
      .ok ⟨"ibc/XYZ", toLegacyDec (roundHalfNat
        (2 * decPrecision * roundHalfNat (10 * decPrecision) (2 * decPrecision))
        decPrecision)⟩ ∧
    2 * (Nat.dist (roundHalfNat
        (2 * decPrecision * roundHalfNat (10 * decPrecision) (2 * decPrecision))
        decPrecision) 10 * decPrecision) ≤ 2 * decPrecision + decPrecision) :=
  resolver_roundTrip sampleResolver "stake" "ibc/XYZ" 10 (2 * decPrecision)
    ⟨"ibc/XYZ", "uosmo", 1, .updated⟩ rfl (by decide) (by decide) (by decide)
    (by decide) ⟨5 * 10 ^ 18, by norm_num [decPrecision]⟩ (by decide) (by decide)

/-- C5 counterexample: the registry's only entry is frozen (disabled), yet
`ExtraDenoms` advertises its denomination — the list is not restricted to
enabled entries. -/
theorem extraDenoms_includes_disabled :
    frozenResolver.feeabsKeeper.hostZoneConfigs =
      [⟨"ibc/ABC", "uosmo", 7, .frozen⟩] ∧
    ExtraDenoms frozenResolver = .ok ["ibc/ABC"] := by
  decide

/-- C5 amended: `ExtraDenoms` returns exactly the denominations that
currently have a Host Zone Config entry, regardless of the entry's
enabled/disabled status. -/
theorem extraDenoms_mem (r : DenomResolverImpl) (d : String) :
    (∃ ds, ExtraDenoms r = .ok ds ∧ d ∈ ds) ↔
      ∃ cfg ∈ r.feeabsKeeper.hostZoneConfigs, cfg.ibcDenom = d := by
  unfold ExtraDenoms getAllHostZoneConfig
  constructor
  · rintro ⟨ds, hds, hmem⟩
    have h := Except.ok.inj hds
    subst h
    exact List.mem_map.mp hmem
  · rintro ⟨cfg, hcfg, hd⟩
    exact ⟨_, rfl, List.mem_map.mpr ⟨cfg, hcfg, hd⟩⟩

/-- C6: a coin bundle with zero coins or more than one coin is rejected by
both conversion helpers with an error, and the result does not depend on the
keeper at all — no registry or rate lookup influences it. -/
theorem conversionHelpers_reject_nonSingleton
    (k k2 : FeeAbsKeeper) (cfg cfg2 : HostChainFeeAbsConfig)
    (coins : List Coin) (h : coins.length ≠ 1) :
    getIBCCoinFromNative k coins cfg =
      .error (.expectedOneNativeCoin coins.length) ∧
    verifyIBCCoins k coins = .error .invalidIBCFees ∧
    getIBCCoinFromNative k coins cfg = getIBCCoinFromNative k2 coins cfg2 ∧
    verifyIBCCoins k coins = verifyIBCCoins k2 coins := by
  cases coins with
  | nil => exact ⟨rfl, rfl, rfl, rfl⟩
  | cons a t =>
    cases t with
    | nil => exact absurd rfl h
    | cons b t2 => exact ⟨rfl, rfl, rfl, rfl⟩

/-- C6 witness: the empty bundle is rejected identically under two different
keepers. -/
theorem conversionHelpers_reject_nonSingleton_witness :
    getIBCCoinFromNative sampleKeeper [] ⟨"ibc/XYZ", "uosmo", 1, .updated⟩ =
      .error (.expectedOneNativeCoin (List.length ([] : List Coin))) ∧
    verifyIBCCoins sampleKeeper [] = .error .invalidIBCFees ∧
    getIBCCoinFromNative sampleKeeper [] ⟨"ibc/XYZ", "uosmo", 1, .updated⟩ =
      getIBCCoinFromNative frozenKeeper [] ⟨"ibc/ABC", "uosmo", 7, .frozen⟩ ∧
    verifyIBCCoins sampleKeeper [] = verifyIBCCoins frozenKeeper [] :=
  conversionHelpers_reject_nonSingleton sampleKeeper frozenKeeper
    ⟨"ibc/XYZ", "uosmo", 1, .updated⟩ ⟨"ibc/ABC", "uosmo", 7, .frozen⟩ [] (by decide)

/-! ## The admission pipeline's execution semantics

Modelled from the spec: the stage implementations and the caller's
commit/rollback of trial state live in the cosmos-sdk (`baseapp` runs the
ante handler on a cached store context and discards it on error), not under
src/.  The Execution Context of spec §3 and the commit-on-success contract of
§4.1/§7 are embedded below; the stage order comes from `anteDecorators`. -/

/-- Modelled from the spec: the per-transaction Execution Context state a
stage may durably mutate (spec §3) — the fee payer's balance, the signer's
replay-protection sequence, and consumed gas. -/
structure ExecState where
  payerBalance : Nat
  signerSequence : Nat
  gasConsumed : Nat
deriving DecidableEq

/-- Modelled from the spec: `sdk.ChainAnteDecorators` — run the stages in
order over the working state, aborting on the first error (spec §4.1: each
stage either delegates to the rest of the chain or rejects). -/
def runStages (interp : AnteStage → ExecState → Except SdkError ExecState) :
    List AnteStage → ExecState → Except SdkError ExecState
  | [], s => .ok s
  | stage :: rest, s =>
    match interp stage s with
    | .ok s2 => runStages interp rest s2
    | .error e => .error e

/-- Modelled from the spec: `Admit(ctx, tx)` — run the eve decorator chain on
a working copy of the durable state; keep the mutated state only when every
stage succeeds, otherwise discard every trial mutation (spec §4.1, §7). -/
def Admit (interp : AnteStage → ExecState → Except SdkError ExecState)
    (durable : ExecState) : ExecState × Option SdkError :=
  match runStages interp anteDecorators durable with
  | .ok s2 => (s2, none)
  | .error e => (durable, some e)

/-- C8: whenever admission fails at any stage — whatever the stage semantics
— the payer's balance after the failed `Admit` call equals the balance before
the call; no partial mutation of a rejected transaction is retained. -/
theorem admit_atomicity
    (interp : AnteStage → ExecState → Except SdkError ExecState)
    (s : ExecState) (e : SdkError)
    (h : (Admit interp s).2 = some e) :
    (Admit interp s).1.payerBalance = s.payerBalance := by
  unfold Admit at h ⊢
  cases hr : runStages interp anteDecorators s with
  | ok s2 =>
    rw [hr] at h
    simp at h
  | error e2 =>
    rfl

/-- A stage interpretation that debits the fee, then fails at signature
verification — a trial mutation followed by a rejection. -/
def failingInterp : AnteStage → ExecState → Except SdkError ExecState
  | .deductFee, s => .ok { s with payerBalance := s.payerBalance - 25 }
  | .sigVerification, _ => .error .invalidIBCFees
  | _, s => .ok s

/-- C8 witness: under `failingInterp` the pipeline fails, and the payer's
balance 100 is intact after the failed call even though the deduct-fee stage
had debited the working copy. -/
theorem admit_atomicity_witness :
    (Admit failingInterp ⟨100, 7, 0⟩).2 = some .invalidIBCFees ∧
    (Admit failingInterp ⟨100, 7, 0⟩).1.payerBalance =
      (⟨100, 7, 0⟩ : ExecState).payerBalance :=
  ⟨by decide, admit_atomicity failingInterp ⟨100, 7, 0⟩ .invalidIBCFees (by decide)⟩

end Eve
